import Mathlib

/-!
Verification of the humble-bundle-inventory categorization engine and search
provider against their natural-language specification.

The embedding translates `src/humble_bundle_inventory/categorization_engine.py`
and `src/humble_bundle_inventory/duckdb_search_provider.py` into Lean.
Python floats are modelled as rationals, dictionaries as association lists or
total functions into `Option`, and compiled regular expressions as abstract
match predicates `String → Bool` (a compiled pattern is only ever consumed
through `pattern.search(text)`, which the code turns into a yes/no answer per
string, so the control flow around matching is independent of the regex
engine itself).
-/

namespace HBI

/-- A compiled regex pattern, abstracted to its search behaviour:
`p s = true` iff `p.search(s)` finds a match somewhere in `s`. -/
abbrev Pattern := String → Bool

/-- An item dictionary (`Dict[str, Any]` in the source, with string values):
`item f = some s` when key `f` is present with value `s`. -/
abbrev Item := String → Option String

/-- `CategoryType` (categorization_engine.py lines 14-24), constructors in the
enumeration declaration order, which Python dict iteration preserves. -/
inductive CategoryType where
  | ebook
  | game
  | software
  | audio
  | video
  | comic
  | bundle
  | subscription_content
  | unknown
deriving DecidableEq

/-- The members of `CategoryType` after the first one, in declaration order. -/
def restCategories : List CategoryType :=
  [.game, .software, .audio, .video, .comic, .bundle, .subscription_content, .unknown]

/-- All members of `CategoryType` in declaration order. -/
def CategoryType.all : List CategoryType := .ebook :: restCategories

/-- `CategoryRule` (lines 26-36). `required_patterns`/`exclusion_patterns`
default to `None` in the source; `None` and `[]` behave identically there
(both are falsy and an empty pattern list matches vacuously), so both are
modelled as `[]`. -/
structure CategoryRule where
  name : String
  category : CategoryType
  subcategory : String
  patterns : List Pattern
  weight : ℚ
  field_weights : List (String × ℚ)
  required_patterns : List Pattern := []
  exclusion_patterns : List Pattern := []

/-- `CategoryResult` (lines 38-46). -/
structure CategoryResult where
  category : CategoryType
  subcategory : String
  confidence : ℚ
  method : String
  matched_rules : List String
  scores : CategoryType → ℚ

/-- `if field in item and item[field]: ... pattern.search(str(item[field]).lower())`
(lines 101-103 and 112-113): the field must be present and truthy (non-empty)
and the pattern must match its lowercased text. -/
def fieldMatches (item : Item) (field : String) (p : Pattern) : Bool :=
  match item field with
  | some s => (s != "") && p s.toLower
  | none => false

/-- `PatternMatcher._matches_in_item` (lines 108-115): does the pattern match
any of the four fixed searchable fields of the item? -/
def matches_in_item (p : Pattern) (item : Item) : Bool :=
  ["name", "human_name", "description", "machine_name"].any
    (fun f => fieldMatches item f p)

/-- Inner accumulation of `PatternMatcher._score_rule` (lines 99-104) for one
pattern: each matching weighted field adds `weight * field_weight`. -/
def patternFieldScore (rule : CategoryRule) (item : Item) (p : Pattern) : ℚ :=
  (rule.field_weights.map
    (fun fw => if fieldMatches item fw.1 p then rule.weight * fw.2 else 0)).sum

/-- `PatternMatcher._score_rule` (lines 82-106): required patterns are checked
first (any miss forces 0), exclusion patterns second (any hit forces 0),
otherwise the pattern/field contributions are summed. -/
def score_rule (rule : CategoryRule) (item : Item) : ℚ :=
  if rule.required_patterns.any (fun p => !(matches_in_item p item)) then 0
  else if rule.exclusion_patterns.any (fun p => matches_in_item p item) then 0
  else (rule.patterns.map (fun p => patternFieldScore rule item p)).sum

/-- `PatternMatcher.match` (lines 72-80): the loop
`scores[rule.category] += self._score_rule(rule, item)` starting from an
all-zero score dict, written as the sum of the contributions each rule makes
to the given category. -/
def categoryScore (rules : List CategoryRule) (item : Item) (c : CategoryType) : ℚ :=
  (rules.map (fun r => if r.category = c then score_rule r item else 0)).sum

/-- CPython `max(iterable, key=...)` over the remaining elements given the
running maximum: a later element replaces the current one only when its key is
strictly greater, so the first element attaining the maximum wins. -/
def pyMax (score : CategoryType → ℚ) (init : CategoryType) : List CategoryType → CategoryType
  | [] => init
  | c :: t => pyMax score (if score init < score c then c else init) t

/-- `max(all_scores, key=all_scores.get)` (line 140): `all_scores` is a dict
keyed by `CategoryType` in declaration order, so the scan starts at `EBOOK`
and proceeds through `restCategories`. -/
def bestCategory (score : CategoryType → ℚ) : CategoryType :=
  pyMax score .ebook restCategories

/-- Python substring membership `needle in hay` on character lists. -/
def charsContain (needle : List Char) : List Char → Bool
  | [] => needle.isEmpty
  | c :: rest => needle.isPrefixOf (c :: rest) || charsContain needle rest

/-- Python `needle in hay` for strings. -/
def containsSub (hay needle : String) : Bool :=
  charsContain needle.toList hay.toList

/-- `any(keyword in name for keyword in [...])` (lines 160-186). -/
def keywordAny (name : String) (kws : List String) : Bool :=
  kws.any (fun k => containsSub name k)

/-- `CategorizationEngine._determine_subcategory` (lines 155-198). The display
name is `str(item.get('name', '') or item.get('human_name', '')).lower()`. -/
def determine_subcategory (category : CategoryType) (item : Item) : String :=
  let nameRaw :=
    match item "name" with
    | some s => if s != "" then s else ((item "human_name").getD "")
    | none => (item "human_name").getD ""
  let name := nameRaw.toLower
  match category with
  | .ebook =>
    if keywordAny name ["programming", "coding", "development"] then "programming"
    else if keywordAny name ["security", "hacking", "pentesting"] then "security"
    else if keywordAny name ["cooking", "recipe", "kitchen"] then "cooking"
    else if keywordAny name ["gardening", "garden", "plant"] then "gardening"
    else if keywordAny name ["art", "design", "creative"] then "arts"
    else if keywordAny name ["survival", "outdoor", "wilderness"] then "survival"
    else "general"
  | .game =>
    if keywordAny name ["strategy", "rts", "turn-based"] then "strategy"
    else if keywordAny name ["rpg", "role playing", "adventure"] then "rpg"
    else if keywordAny name ["simulation", "simulator", "sim"] then "simulation"
    else if keywordAny name ["puzzle", "brain", "logic"] then "puzzle"
    else if keywordAny name ["action", "shooter", "fps"] then "action"
    else "general"
  | .subscription_content =>
    if containsSub name "coupon" then "coupon"
    else if containsSub name "choice" then "humble_choice"
    else "general"
  | _ => "general"

/-- `CategorizationEngine.categorize` (lines 126-153) for an engine whose
matcher list holds the single default `PatternMatcher` over `rules` (the
constructor installs exactly that), so the aggregate score map is the
matcher's score map added to the zero-initialised dict. The local
`matched_rules` list is initialised to `[]` on line 129 and never appended to
before being returned on line 151. -/
def categorize (rules : List CategoryRule) (item : Item) : CategoryResult :=
  let all_scores := fun c => categoryScore rules item c
  let best_category := bestCategory all_scores
  { category := best_category
    subcategory := determine_subcategory best_category item
    confidence := min (all_scores best_category) 1
    method := "PatternMatcher"
    matched_rules := []
    scores := all_scores }


/-- Spec-side selector: the first category in declaration order whose
aggregate score is maximal. -/
def firstWithMaxScore (score : CategoryType → ℚ) : CategoryType :=
  ((CategoryType.all).find? (fun c => decide (∀ d ∈ CategoryType.all, score d ≤ score c))).getD
    CategoryType.unknown

theorem pyMax_spec (score : CategoryType → ℚ) :
    ∀ (l : List CategoryType) (init : CategoryType),
      (pyMax score init l = init ∧ ∀ c ∈ l, score c ≤ score init) ∨
      (∃ l₁ l₂, l = l₁ ++ (pyMax score init l) :: l₂ ∧
        score init < score (pyMax score init l) ∧
        (∀ c ∈ l₁, score c < score (pyMax score init l)) ∧
        (∀ c ∈ l₂, score c ≤ score (pyMax score init l))) := by
  intro l
  induction l with
  | nil =>
    intro init
    left
    exact ⟨rfl, by simp⟩
  | cons c t ih =>
    intro init
    by_cases hc : score init < score c
    · have hfold : pyMax score init (c :: t) = pyMax score c t := by
        simp [pyMax, if_pos hc]
      rw [hfold]
      rcases ih c with ⟨heq, hall⟩ | ⟨l₁, l₂, hdec, hlt, hl₁, hl₂⟩
      · right
        refine ⟨[], t, by rw [heq, List.nil_append], ?_, by simp, ?_⟩
        · rw [heq]; exact hc
        · rw [heq]; exact hall
      · right
        refine ⟨c :: l₁, l₂, by rw [List.cons_append, ← hdec], lt_trans hc hlt, ?_, hl₂⟩
        intro d hd
        rcases List.mem_cons.mp hd with rfl | hd
        · exact hlt
        · exact hl₁ d hd
    · have hfold : pyMax score init (c :: t) = pyMax score init t := by
        simp [pyMax, if_neg hc]
      rw [hfold]
      rcases ih init with ⟨heq, hall⟩ | ⟨l₁, l₂, hdec, hlt, hl₁, hl₂⟩
      · left
        refine ⟨heq, ?_⟩
        intro d hd
        rcases List.mem_cons.mp hd with rfl | hd
        · exact not_lt.mp hc
        · exact hall d hd
      · right
        refine ⟨c :: l₁, l₂, by rw [List.cons_append, ← hdec], hlt, ?_, hl₂⟩
        intro d hd
        rcases List.mem_cons.mp hd with rfl | hd
        · exact lt_of_le_of_lt (not_lt.mp hc) hlt
        · exact hl₁ d hd

theorem mem_all (c : CategoryType) : c ∈ CategoryType.all := by
  cases c <;> simp [CategoryType.all, restCategories]

theorem bestCategory_max (score : CategoryType → ℚ) (c : CategoryType) :
    score c ≤ score (bestCategory score) := by
  rcases pyMax_spec score restCategories .ebook with ⟨heq, hall⟩ | ⟨l₁, l₂, hdec, hlt, hl₁, hl₂⟩
  · rw [bestCategory, heq]
    have := mem_all c
    rw [CategoryType.all, List.mem_cons] at this
    rcases this with rfl | hmem
    · exact le_refl _
    · exact hall c hmem
  · have hc := mem_all c
    rw [CategoryType.all, hdec] at hc
    rw [bestCategory]
    rcases List.mem_cons.mp hc with rfl | hc
    · exact le_of_lt hlt
    · rcases List.mem_append.mp hc with h1 | h2
      · exact le_of_lt (hl₁ c h1)
      · rcases List.mem_cons.mp h2 with rfl | h2
        · exact le_refl _
        · exact hl₂ c h2

theorem find?_drop_falsy {α : Type} (p : α → Bool) (l₁ l₂ : List α)
    (h : ∀ x ∈ l₁, p x = false) : (l₁ ++ l₂).find? p = l₂.find? p := by
  induction l₁ with
  | nil => rfl
  | cons a t ih =>
    rw [List.cons_append, List.find?_cons_of_neg, ih]
    · intro x hx
      exact h x (List.mem_cons_of_mem a hx)
    · simp [h a (List.mem_cons_self a t)]

theorem bestCategory_eq_firstWithMaxScore (score : CategoryType → ℚ) :
    bestCategory score = firstWithMaxScore score := by
  have hmax := bestCategory_max score
  rw [bestCategory] at hmax
  rcases pyMax_spec score restCategories .ebook with ⟨heq, hall⟩ | ⟨l₁, l₂, hdec, hlt, hl₁, hl₂⟩
  · rw [bestCategory, heq]
    rw [heq] at hmax
    rw [firstWithMaxScore, CategoryType.all, List.find?_cons_of_pos]
    · rfl
    · simp only [decide_eq_true_eq]
      intro d _
      exact hmax d
  · rw [bestCategory, firstWithMaxScore]
    have hall2 : CategoryType.all =
        (CategoryType.ebook :: l₁) ++ pyMax score .ebook restCategories :: l₂ := by
      conv_lhs => rw [CategoryType.all, hdec]
      rw [List.cons_append]
    rw [hall2, find?_drop_falsy, List.find?_cons_of_pos]
    · rfl
    · simp only [decide_eq_true_eq]
      intro d _
      exact hmax d
    · intro x hx
      simp only [decide_eq_false_iff_not, not_forall]
      refine ⟨pyMax score .ebook restCategories, ?_, ?_⟩
      · rw [← hall2]
        exact mem_all _
      rcases List.mem_cons.mp hx with rfl | hx
      · exact not_le.mpr hlt
      · exact not_le.mpr (hl₁ x hx)



/-- If no later category strictly beats `EBOOK`, the scan keeps `EBOOK`. -/
theorem bestCategory_eq_ebook (score : CategoryType → ℚ)
    (h : ∀ c ∈ restCategories, score c ≤ score .ebook) :
    bestCategory score = .ebook := by
  rcases pyMax_spec score restCategories .ebook with ⟨heq, _⟩ | ⟨l₁, l₂, hdec, hlt, _, _⟩
  · exact heq
  · exfalso
    have hmem : pyMax score .ebook restCategories ∈ l₁ ++ pyMax score .ebook restCategories :: l₂ :=
      List.mem_append_right _ (List.mem_cons_self _ _)
    rw [← hdec] at hmem
    exact absurd (h _ hmem) (not_le.mpr hlt)

/-- A pattern that matches every string (e.g. the regex `.*`). -/
def patTrue : Pattern := fun _ => true

/-- A pattern that matches no string at all. -/
def patFalse : Pattern := fun _ => false

/-- A fixture item carrying the value `"x"` in every field. -/
def itemX : Item := fun _ => some "x"

/-- Fixture rule: always-matching single pattern, weight 1, one weighted field. -/
def ruleA : CategoryRule :=
  { name := "ruleA", category := .ebook, subcategory := "general",
    patterns := [patTrue], weight := 1, field_weights := [("name", 1)] }

/-- Fixture rule whose single required pattern never matches. -/
def ruleReq : CategoryRule := { ruleA with name := "ruleReq", required_patterns := [patFalse] }

/-- Fixture rule whose single exclusion pattern always matches. -/
def ruleExc : CategoryRule := { ruleA with name := "ruleExc", exclusion_patterns := [patTrue] }

/-- Two identical-weight `EBOOK` rules: each scores 1, so the aggregate is 2. -/
def rulesTwo : List CategoryRule := [ruleA, { ruleA with name := "ruleB" }]

theorem rulesTwo_score_ebook : categoryScore rulesTwo itemX .ebook = 2 := by
  simp [categoryScore, rulesTwo, score_rule, ruleA, patternFieldScore, fieldMatches,
    itemX, patTrue]
  norm_num

theorem rulesTwo_score_rest : ∀ c ∈ restCategories, categoryScore rulesTwo itemX c = 0 := by
  intro c hc
  fin_cases hc <;> simp [categoryScore, rulesTwo, ruleA]

theorem rulesTwo_best : (categorize rulesTwo itemX).category = CategoryType.ebook := by
  show bestCategory (fun c => categoryScore rulesTwo itemX c) = CategoryType.ebook
  apply bestCategory_eq_ebook
  intro c hc
  rw [rulesTwo_score_rest c hc, rulesTwo_score_ebook]
  norm_num

/-- C2: for every rule and item, if some required pattern matches none of the
searchable fields the rule contributes exactly 0, and if some exclusion
pattern matches a searchable field the rule contributes exactly 0, no matter
how well `patterns` match; in `score_rule` the required check is evaluated
before the exclusion check, exactly as in the source. -/
theorem score_rule_gating (rule : CategoryRule) (item : Item) :
    ((∃ p ∈ rule.required_patterns, matches_in_item p item = false) →
      score_rule rule item = 0) ∧
    ((∃ p ∈ rule.exclusion_patterns, matches_in_item p item = true) →
      score_rule rule item = 0) := by
  constructor
  · rintro ⟨p, hp, hm⟩
    rw [score_rule, if_pos]
    exact List.any_eq_true.mpr ⟨p, hp, by rw [hm]; rfl⟩
  · rintro ⟨p, hp, hm⟩
    rw [score_rule]
    by_cases hreq : rule.required_patterns.any (fun q => !(matches_in_item q item)) = true
    · rw [if_pos hreq]
    · rw [if_neg hreq, if_pos]
      exact List.any_eq_true.mpr ⟨p, hp, hm⟩

/-- Witness for C2 at a rule with an unmet required pattern and one with a
matched exclusion pattern. -/
theorem score_rule_gating_witness :
    score_rule ruleReq itemX = 0 ∧ score_rule ruleExc itemX = 0 := by
  constructor
  · exact (score_rule_gating ruleReq itemX).1
      ⟨patFalse, List.Mem.head _, by simp [matches_in_item, fieldMatches, itemX, patFalse]⟩
  · exact (score_rule_gating ruleExc itemX).2
      ⟨patTrue, List.Mem.head _, by simp [matches_in_item, fieldMatches, itemX, patTrue]⟩

/-- C1 amended: for every item on which no rule pattern matches any weighted
field, `categorize` never raises (the embedding is total), every category
aggregate score is 0, and the result has confidence 0 — with category
`EBOOK`, the declaration-first enumeration member, rather than `unknown`. -/
theorem categorize_no_match (rules : List CategoryRule) (item : Item)
    (h : ∀ rule ∈ rules, ∀ p ∈ rule.patterns, ∀ fw ∈ rule.field_weights,
      fieldMatches item fw.1 p = false) :
    (∀ c, (categorize rules item).scores c = 0) ∧
    (categorize rules item).category = CategoryType.ebook ∧
    (categorize rules item).confidence = 0 := by
  have hrule : ∀ rule ∈ rules, score_rule rule item = 0 := by
    intro rule hr
    rw [score_rule]
    split
    · rfl
    split
    · rfl
    apply List.sum_eq_zero
    intro x hx
    rw [List.mem_map] at hx
    obtain ⟨p, hp, rfl⟩ := hx
    apply List.sum_eq_zero
    intro y hy
    rw [List.mem_map] at hy
    obtain ⟨fw, hfw, rfl⟩ := hy
    rw [h rule hr p hp fw hfw]
    rfl
  have hz : ∀ c, categoryScore rules item c = 0 := by
    intro c
    apply List.sum_eq_zero
    intro x hx
    rw [List.mem_map] at hx
    obtain ⟨r, hr, rfl⟩ := hx
    by_cases hrc : r.category = c
    · rw [if_pos hrc, hrule r hr]
    · rw [if_neg hrc]
  refine ⟨fun c => hz c, ?_, ?_⟩
  · show bestCategory (fun c => categoryScore rules item c) = CategoryType.ebook
    apply bestCategory_eq_ebook
    intro c _
    rw [hz c, hz .ebook]
  · show min (categoryScore rules item (bestCategory fun c => categoryScore rules item c)) 1 = 0
    rw [hz]
    norm_num

/-- Witness for C1 (amended) at a one-rule engine whose pattern matches
nothing. -/
theorem categorize_no_match_witness :
    (categorize [{ ruleA with patterns := [patFalse] }] itemX).scores CategoryType.game = 0 ∧
    (categorize [{ ruleA with patterns := [patFalse] }] itemX).category = CategoryType.ebook ∧
    (categorize [{ ruleA with patterns := [patFalse] }] itemX).confidence = 0 := by
  have h := categorize_no_match [{ ruleA with patterns := [patFalse] }] itemX
    (by
      intro rule hr p hp fw hfw
      fin_cases hr
      fin_cases hp
      fin_cases hfw
      simp [fieldMatches, itemX, patFalse, ruleA])
  exact ⟨h.1 CategoryType.game, h.2.1, h.2.2⟩

/-- C1 counterexample: for the item with every field missing, no pattern can
match, every aggregate score is 0, and `categorize` never raises — but the
returned category is `EBOOK` (the declaration-first key of the score dict, as
`max` keeps the first maximal key), not `unknown` as the claim states. -/
theorem categorize_empty_not_unknown :
    (∀ c, (categorize [] (fun _ => none)).scores c = 0) ∧
    (categorize [] (fun _ => none)).category = CategoryType.ebook ∧
    CategoryType.ebook ≠ CategoryType.unknown := by
  refine ⟨fun c => rfl, ?_, by decide⟩
  decide



/-- C3: for every item the returned confidence equals
`min(winning aggregate score, 1)`: a summed score above 1 (as when several
rules of one category fire) is clamped to exactly 1, and a score at most 1 is
returned unchanged, not re-normalised. -/
theorem categorize_confidence_clamped (rules : List CategoryRule) (item : Item) :
    (categorize rules item).confidence =
      min ((categorize rules item).scores ((categorize rules item).category)) 1 ∧
    (1 < (categorize rules item).scores ((categorize rules item).category) →
      (categorize rules item).confidence = 1) ∧
    ((categorize rules item).scores ((categorize rules item).category) ≤ 1 →
      (categorize rules item).confidence =
        (categorize rules item).scores ((categorize rules item).category)) := by
  refine ⟨rfl, ?_, ?_⟩
  · intro h
    exact min_eq_right (le_of_lt h)
  · intro h
    exact min_eq_left h

/-- Witness for C3: two weight-1 rules of the same category push the
aggregate to 2, and the confidence is clamped to exactly 1. -/
theorem categorize_confidence_clamped_witness :
    1 < (categorize rulesTwo itemX).scores ((categorize rulesTwo itemX).category) ∧
    (categorize rulesTwo itemX).confidence = 1 := by
  have hgt : 1 < (categorize rulesTwo itemX).scores ((categorize rulesTwo itemX).category) := by
    have hcat := rulesTwo_best
    show 1 < categoryScore rulesTwo itemX ((categorize rulesTwo itemX).category)
    rw [hcat, rulesTwo_score_ebook]
    norm_num
  exact ⟨hgt, (categorize_confidence_clamped rulesTwo itemX).2.1 hgt⟩

/-- C4: for every item and rule state, `categorize` selects a category whose
aggregate score is maximal, and it is precisely `firstWithMaxScore` — the
first category in `CategoryType` declaration order among those attaining the
maximum, which settles exact ties; determinism is intrinsic, as the embedding
is a pure function of the item and rule state. -/
theorem categorize_argmax_decl_order (rules : List CategoryRule) (item : Item) :
    (∀ c, categoryScore rules item c ≤
      categoryScore rules item ((categorize rules item).category)) ∧
    (categorize rules item).category =
      firstWithMaxScore (fun c => categoryScore rules item c) := by
  constructor
  · intro c
    exact bestCategory_max (fun c => categoryScore rules item c) c
  · exact bestCategory_eq_firstWithMaxScore (fun c => categoryScore rules item c)

/-- C8 (code bug): the claim says `matched_rules` holds exactly the names of
the rules that contributed non-zero score, but the source initialises the
accumulator to `[]` and never appends to it; here `ruleA` contributes a
non-zero aggregate score yet `matched_rules` comes back empty (by
construction it is `[]` for every input). -/
theorem matched_rules_empty_despite_match :
    (categorize [ruleA] itemX).scores CategoryType.ebook ≠ 0 ∧
    (categorize [ruleA] itemX).matched_rules = [] := by
  constructor
  · show categoryScore [ruleA] itemX CategoryType.ebook ≠ 0
    have : categoryScore [ruleA] itemX CategoryType.ebook = 1 := by
      simp [categoryScore, score_rule, ruleA, patternFieldScore, fieldMatches, itemX, patTrue]
    rw [this]
    norm_num
  · rfl



/-- One row of the fixed search projection produced by the SELECT shared by all
search paths of duckdb_search_provider.py (columns in select-list order;
`p.description` is NOT among them). `LEFT JOIN` columns are nullable, so every
column is an `Option`. -/
structure Row where
  product_id : Option String
  human_name : Option String
  category : Option String
  subcategory : Option String
  developer : Option String
  publisher : Option String
  tags : Option String
  rating : Option ℚ
  release_date : Option String
  source_name : Option String
  bundle_name : Option String
  platform : Option String
  download_type : Option String
  file_size_display : Option String
  /-- The `products.description` column of the underlying record: part of the
  stored item, but absent from the search projection above. -/
  description : Option String
deriving DecidableEq

/-- `self.searchable_fields` (duckdb_search_provider.py lines 27-30). -/
def searchable_fields : List String :=
  ["human_name", "description", "category", "subcategory",
   "developer", "publisher", "tags", "bundle_name"]

/-- `DuckDBSearchProvider._get_field_value` (lines 411-423): the field-name to
row-position mapping; `'description'` is hard-wired to `None` ("Not in current
select") and `.get` returns `None` for any unmapped name. -/
def get_field_value (row : Row) (field : String) : Option String :=
  if field = "human_name" then row.human_name
  else if field = "description" then none
  else if field = "category" then row.category
  else if field = "subcategory" then row.subcategory
  else if field = "developer" then row.developer
  else if field = "publisher" then row.publisher
  else if field = "tags" then row.tags
  else if field = "bundle_name" then row.bundle_name
  else none

/-- Python truthiness of `field_value` followed by `pattern.search(...)`:
`if field_value and pattern.search(str(field_value))`. -/
def valueMatches (pat : Pattern) (v : Option String) : Bool :=
  match v with
  | some s => (s != "") && pat s
  | none => false

/-- `DuckDBSearchProvider._row_matches_regex` (lines 403-409). -/
def row_matches_regex (pat : Pattern) (row : Row) : Bool :=
  searchable_fields.any (fun field => valueMatches pat (get_field_value row field))

/-- A filter dict drawn from the fixed key set (lines 374-392); a key that is
absent or has a falsy value (empty string, zero rating) adds no condition. -/
structure Filters where
  category : Option String := none
  source : Option String := none
  platform : Option String := none
  rating_min : Option ℚ := none
  rating_max : Option ℚ := none
deriving DecidableEq

/-- Python truthiness of an optional string filter value. -/
def truthyS : Option String → Bool
  | some s => s != ""
  | none => false

/-- Python truthiness of an optional numeric filter value. -/
def truthyQ : Option ℚ → Bool
  | some q => decide (q ≠ 0)
  | none => false

/-- SQL equality against a possibly-NULL column: NULL compares false. -/
def colEq (col : Option String) (v : Option String) : Bool :=
  match col, v with
  | some a, some b => a == b
  | _, _ => false

/-- The WHERE conditions appended by `_add_filters_to_sql` (lines 367-401),
read as a row predicate: each truthy filter key contributes one conjunct. -/
def passesFilters (fs : Filters) (row : Row) : Bool :=
  (!truthyS fs.category || colEq row.category fs.category) &&
  (!truthyS fs.source || colEq row.source_name fs.source) &&
  (!truthyS fs.platform || colEq row.platform fs.platform) &&
  (!truthyQ fs.rating_min ||
    (match row.rating, fs.rating_min with
     | some r, some q => decide (q ≤ r)
     | _, _ => false)) &&
  (!truthyQ fs.rating_max ||
    (match row.rating, fs.rating_max with
     | some r, some q => decide (r ≤ q)
     | _, _ => false))

/-- The store-side fetch shared by the regex paths: the base SELECT (modelled
as the list of projection rows in `ORDER BY p.human_name` order) with the
filter conditions applied at the store stage (`if filters:` — an absent dict
adds nothing). -/
def runBaseQuery (store : List Row) (fs : Option Filters) : List Row :=
  match fs with
  | some f => store.filter (fun row => passesFilters f row)
  | none => store

/-- `DuckDBSearchProvider._search_with_regex` (lines 176-214): fetch the
filter-narrowed rows, then keep those matching the pattern in any searchable
field. The up-front `validate_regex` guard is outside the embedding (patterns
arrive already compiled), and `_format_results` relabels columns one-to-one
and is dropped. -/
def search_with_regex (pat : Pattern) (fs : Option Filters) (store : List Row) : List Row :=
  (runBaseQuery store fs).filter (fun row => row_matches_regex pat row)

/-- Reference implementation from the spec: run the regex over the whole
store first and apply the filters afterwards, in-process. -/
def search_regex_then_filter (pat : Pattern) (fs : Option Filters) (store : List Row) : List Row :=
  match fs with
  | some f => (store.filter (fun row => row_matches_regex pat row)).filter
      (fun row => passesFilters f row)
  | none => store.filter (fun row => row_matches_regex pat row)

/-- The membership criterion exactly as the spec words it: the pattern matches
at least one of the EIGHT searchable fields of the stored record itself
(including its `description`). -/
def specMatchesEightFields (pat : Pattern) (row : Row) : Bool :=
  [row.human_name, row.description, row.category, row.subcategory,
   row.developer, row.publisher, row.tags, row.bundle_name].any
    (fun v => valueMatches pat v)

/-- The criterion the code actually applies: the same check over the seven
projection-backed fields, `description` excluded. -/
def specMatchesSevenFields (pat : Pattern) (row : Row) : Bool :=
  [row.human_name, row.category, row.subcategory,
   row.developer, row.publisher, row.tags, row.bundle_name].any
    (fun v => valueMatches pat v)

theorem row_matches_regex_eq_seven (pat : Pattern) (row : Row) :
    row_matches_regex pat row = specMatchesSevenFields pat row := rfl



/-- Empty fixture row: every column NULL. -/
def emptyRow : Row :=
  { product_id := none, human_name := none, category := none, subcategory := none,
    developer := none, publisher := none, tags := none, rating := none,
    release_date := none, source_name := none, bundle_name := none,
    platform := none, download_type := none, file_size_display := none,
    description := none }

/-- A stored record whose only text lives in its `description` column. -/
def rowDescOnly : Row := { emptyRow with description := some "all about zebras" }

/-- A pattern standing for a regex that matches exactly the description text. -/
def patDesc : Pattern := fun s => s == "all about zebras"

/-- C5 counterexample: a stored record whose `description` — one of the eight
searchable fields — matches the pattern is nevertheless not returned by
regex-mode `search_assets`, because the search projection omits
`p.description` and `_get_field_value` hard-wires it to `None`. -/
theorem search_regex_misses_description :
    specMatchesEightFields patDesc rowDescOnly = true ∧
    search_with_regex patDesc none [rowDescOnly] = [] := by
  constructor
  · decide
  · decide

/-- C5 amended: in regex mode `search_assets` keeps a fetched record iff the
compiled pattern matches at least one of the SEVEN projection-backed
searchable fields (`human_name, category, subcategory, developer, publisher,
tags, bundle_name`); the eighth listed field, `description`, is projected as
`None` and can never contribute. -/
theorem search_regex_keeps_iff_seven_fields (pat : Pattern) (fs : Option Filters)
    (store : List Row) (row : Row) :
    row ∈ search_with_regex pat fs store ↔
      row ∈ runBaseQuery store fs ∧ specMatchesSevenFields pat row = true := by
  rw [search_with_regex, List.mem_filter, row_matches_regex_eq_seven]

/-- Witness for C5 (amended): a row matched via `human_name` is returned. -/
theorem search_regex_keeps_iff_seven_fields_witness :
    { emptyRow with human_name := some "zebra guide" } ∈
      search_with_regex patTrue none [{ emptyRow with human_name := some "zebra guide" }] := by
  have h := (search_regex_keeps_iff_seven_fields patTrue none
    [{ emptyRow with human_name := some "zebra guide" }]
    { emptyRow with human_name := some "zebra guide" }).mpr
  exact h ⟨by decide, by decide⟩

/-- C7: for every regex-mode search with a filter set, applying the filters at
the store stage before the regex post-filter returns exactly the same result
list as the reference implementation that runs the regex first and filters
afterwards, and every returned row satisfies all the filters. -/
theorem search_regex_filter_order_equiv (pat : Pattern) (fs : Option Filters)
    (store : List Row) :
    search_with_regex pat fs store = search_regex_then_filter pat fs store ∧
    (∀ f, fs = some f →
      ∀ row ∈ search_with_regex pat fs store, passesFilters f row = true) := by
  constructor
  · match fs with
    | none => rfl
    | some f =>
      show (store.filter _).filter _ = (store.filter _).filter _
      rw [List.filter_comm]
  · rintro f rfl row hrow
    rw [search_with_regex] at hrow
    exact (List.mem_filter.mp (List.mem_filter.mp hrow).1).2

/-- Fixture filter selecting category `"ebook"`. -/
def ebookFilter : Filters := { category := some "ebook" }

/-- Fixture rows for the filter-equivalence witness. -/
def rowEbook : Row := { emptyRow with human_name := some "alpha", category := some "ebook" }

def rowGame : Row := { emptyRow with human_name := some "beta", category := some "game" }

/-- Witness for C7 on a two-row store with a category filter. -/
theorem search_regex_filter_order_equiv_witness :
    search_with_regex patTrue (some ebookFilter) [rowEbook, rowGame] =
      search_regex_then_filter patTrue (some ebookFilter) [rowEbook, rowGame] ∧
    passesFilters ebookFilter rowEbook = true := by
  have h := search_regex_filter_order_equiv patTrue (some ebookFilter) [rowEbook, rowGame]
  refine ⟨h.1, ?_⟩
  have hmem : rowEbook ∈ search_with_regex patTrue (some ebookFilter) [rowEbook, rowGame] := by
    decide
  exact h.2 ebookFilter rfl rowEbook hmem



/-- The structured content of the errors raised by the search entry points
(`raise ValueError(...)` in search_by_field / search_advanced): the
invalid-field error carries the offending field name and the list of valid
fields, as the interpolated message does. -/
inductive SearchError where
  | invalidField (field : String) (validFields : List String)
  | invalidOperator (op : String)
deriving DecidableEq

/-- `p.{field}` in a WHERE clause: the named column of the products row (the
table itself, so `description` IS addressable here, unlike the projection). -/
def productColumn (row : Row) (field : String) : Option String :=
  if field = "human_name" then row.human_name
  else if field = "description" then row.description
  else if field = "category" then row.category
  else if field = "subcategory" then row.subcategory
  else if field = "developer" then row.developer
  else if field = "publisher" then row.publisher
  else if field = "tags" then row.tags
  else if field = "bundle_name" then row.bundle_name
  else none

/-- SQL `col ILIKE '%q%'`: case-insensitive substring, false on NULL. -/
def ilike (col : Option String) (q : String) : Bool :=
  match col with
  | some s => containsSub s.toLower q.toLower
  | none => false

/-- `DuckDBSearchProvider._search_field_with_regex` (lines 241-278): fetch the
filter-narrowed projection, then keep rows whose named field (via
`_get_field_value`) is truthy and matches the pattern. -/
def search_field_with_regex (store : List Row) (field : String) (pat : Pattern)
    (fs : Option Filters) : List Row :=
  (runBaseQuery store fs).filter (fun row => valueMatches pat (get_field_value row field))

/-- `DuckDBSearchProvider._search_field_with_text` (lines 216-239): the store
evaluates `p.{field} ILIKE '%query%'` plus the filter conditions. -/
def search_field_with_text (store : List Row) (field : String) (q : String)
    (fs : Option Filters) : List Row :=
  (runBaseQuery store fs).filter (fun row => ilike (productColumn row field) q)

/-- `DuckDBSearchProvider.search_by_field` (lines 54-79), regex mode: the
field-name guard runs before anything touches the store. -/
def search_by_field_regex (store : List Row) (field : String) (pat : Pattern)
    (fs : Option Filters) : Except SearchError (List Row) :=
  if !(searchable_fields.contains field) then
    .error (.invalidField field searchable_fields)
  else
    .ok (search_field_with_regex store field pat fs)

/-- `DuckDBSearchProvider.search_by_field` (lines 54-79), text mode. -/
def search_by_field_text (store : List Row) (field : String) (q : String)
    (fs : Option Filters) : Except SearchError (List Row) :=
  if !(searchable_fields.contains field) then
    .error (.invalidField field searchable_fields)
  else
    .ok (search_field_with_text store field q fs)

/-- `DuckDBSearchProvider._advanced_search_with_text` (lines 280-313): unknown
field names are silently dropped when the per-field conditions are collected;
with no remaining condition the method returns `[]` without querying. -/
def advanced_search_with_text (store : List Row) (queries : List (String × String))
    (fs : Option Filters) (op : String) : List Row :=
  let conditions := queries.filter (fun fq => searchable_fields.contains fq.1)
  if conditions.isEmpty then []
  else
    (runBaseQuery store fs).filter (fun row =>
      if op = "AND" then conditions.all (fun fq => ilike (productColumn row fq.1) fq.2)
      else conditions.any (fun fq => ilike (productColumn row fq.1) fq.2))

/-- `DuckDBSearchProvider._advanced_search_with_regex` (lines 315-365): every
query (unknown fields included) is evaluated to a boolean per row through
`_get_field_value`, then combined with AND/OR. -/
def advanced_search_with_regex (store : List Row) (queries : List (String × Pattern))
    (fs : Option Filters) (op : String) : List Row :=
  (runBaseQuery store fs).filter (fun row =>
    let matchResults := queries.map (fun fq => valueMatches fq.2 (get_field_value row fq.1))
    if op = "AND" then matchResults.all (fun b => b) else matchResults.any (fun b => b))

/-- `DuckDBSearchProvider.search_advanced` (lines 81-106), text mode: only the
operator is validated before dispatch. -/
def search_advanced_text (store : List Row) (queries : List (String × String))
    (fs : Option Filters) (op : String) : Except SearchError (List Row) :=
  if op != "AND" && op != "OR" then .error (.invalidOperator op)
  else .ok (advanced_search_with_text store queries fs op)

/-- `DuckDBSearchProvider.search_advanced` (lines 81-106), regex mode. -/
def search_advanced_regex (store : List Row) (queries : List (String × Pattern))
    (fs : Option Filters) (op : String) : Except SearchError (List Row) :=
  if op != "AND" && op != "OR" then .error (.invalidOperator op)
  else .ok (advanced_search_with_regex store queries fs op)

/-- C6 counterexample: `search_advanced` with a single unknown field does NOT
fail with an error naming the field — on a non-empty store both modes return
a plain `ok []`, i.e. the unknown field is silently treated as producing no
matches. -/
theorem search_advanced_unknown_field_no_error :
    search_advanced_text [rowEbook] [("bogus_field", "x")] none "AND" = .ok [] ∧
    search_advanced_regex [rowEbook] [("bogus_field", patTrue)] none "AND" = .ok [] := by
  constructor
  · rfl
  · rfl

/-- An unknown field name reaches the `.get` default of the field mapping. -/
theorem get_field_value_unknown (row : Row) (field : String)
    (h : searchable_fields.contains field = false) :
    get_field_value row field = none := by
  simp only [searchable_fields, List.contains_cons, List.contains_nil,
    Bool.or_eq_false_iff, beq_eq_false_iff_ne, ne_eq] at h
  obtain ⟨h1, h2, h3, h4, h5, h6, h7, h8, -⟩ := h
  rw [get_field_value, if_neg h1, if_neg h2, if_neg h3, if_neg h4, if_neg h5,
    if_neg h6, if_neg h7, if_neg h8]

/-- C6 amended: `search_by_field` rejects an unknown field up front with an
error naming the field and carrying the valid-field list, independently of the
store; `search_advanced` instead ignores the unknown field (text mode) or
treats it as never matching (regex mode, AND). -/
theorem search_by_field_unknown_field (field : String)
    (h : searchable_fields.contains field = false) :
    (∀ store pat fs, search_by_field_regex store field pat fs =
      .error (.invalidField field searchable_fields)) ∧
    (∀ store q fs, search_by_field_text store field q fs =
      .error (.invalidField field searchable_fields)) ∧
    (∀ store q fs, search_advanced_text store [(field, q)] fs "AND" = .ok []) ∧
    (∀ store pat fs, search_advanced_regex store [(field, pat)] fs "AND" = .ok []) := by
  refine ⟨?_, ?_, ?_, ?_⟩
  · intro store pat fs
    rw [search_by_field_regex, h]
    rfl
  · intro store q fs
    rw [search_by_field_text, h]
    rfl
  · intro store q fs
    have hmem : ¬ (field ∈ searchable_fields) := by simpa using h
    simp [search_advanced_text, advanced_search_with_text, hmem]
  · intro store pat fs
    simp only [search_advanced_regex]
    rw [if_neg (by decide)]
    rw [show advanced_search_with_regex store [(field, pat)] fs "AND" = [] from ?_]
    rw [advanced_search_with_regex]
    apply List.filter_eq_nil_iff.mpr
    intro row _
    simp [get_field_value_unknown row field h, valueMatches]



/-- Witness for C6 (amended) at the unknown field name `bogus_field`. -/
theorem search_by_field_unknown_field_witness :
    search_by_field_regex [rowEbook] "bogus_field" patTrue none =
      .error (.invalidField "bogus_field" searchable_fields) ∧
    search_by_field_text [rowEbook] "bogus_field" "x" none =
      .error (.invalidField "bogus_field" searchable_fields) := by
  have h := search_by_field_unknown_field "bogus_field" (by rfl)
  exact ⟨h.1 [rowEbook] patTrue none, h.2.1 [rowEbook] "x" none⟩

/-- C10: `search_by_field` on field `description` in regex mode returns the
empty list for every query pattern and store state: the per-row lookup of
`description` always yields the missing value `None`, which is falsy and is
never regex-tested, so no candidate survives the post-filter. -/
theorem search_by_field_description_regex_empty (store : List Row) (pat : Pattern)
    (fs : Option Filters) :
    search_by_field_regex store "description" pat fs = .ok [] := by
  rw [search_by_field_regex]
  rw [if_neg (by decide)]
  rw [show search_field_with_regex store "description" pat fs = [] from ?_]
  rw [search_field_with_regex]
  apply List.filter_eq_nil_iff.mpr
  intro row _
  simp [get_field_value, valueMatches]

/-- The four store queries issued by `get_search_stats` (lines 114-134), each
of which can independently fail; a failed `execute` raises, modelled as the
error branch of `Except`. Distribution rows pair a (possibly NULL) group key
with a count. -/
structure StatsConn where
  total_products : Except String Nat
  total_bundles : Except String Nat
  category_stats : Except String (List (Option String × Nat))
  source_stats : Except String (List (Option String × Nat))

/-- The shape of the value `get_search_stats` returns: the normal
counts-and-distributions dict, or the recovery dict keyed by `error`. Both
carry the searchable-field list; the wall-clock `last_updated` stamp is not
modelled. -/
inductive StatsResult where
  | ok (total_products : Nat) (total_bundles : Nat)
      (category_distribution : List (Option String × Nat))
      (source_distribution : List (Option String × Nat))
      (fields : List String)
  | error (msg : String) (fields : List String)
deriving DecidableEq

/-- `DuckDBSearchProvider.get_search_stats` (lines 112-149): the four queries
run in order inside `try`; the first failure jumps to `except`, which returns
the error-shaped dict instead of raising. -/
def get_search_stats (conn : StatsConn) : StatsResult :=
  match conn.total_products with
  | .error e => .error e searchable_fields
  | .ok tp =>
    match conn.total_bundles with
    | .error e => .error e searchable_fields
    | .ok tb =>
      match conn.category_stats with
      | .error e => .error e searchable_fields
      | .ok cs =>
        match conn.source_stats with
        | .error e => .error e searchable_fields
        | .ok ss => .ok tp tb cs ss searchable_fields

/-- C9: `get_search_stats` never raises — for every store state it returns a
value, either the normal counts-and-distributions shape or, exactly when some
internal query fails, the error shape carrying the failure message together
with the searchable-field list. -/
theorem get_search_stats_never_raises (conn : StatsConn) :
    ((∃ msg, get_search_stats conn = .error msg searchable_fields) ∨
      (∃ tp tb cs ss, get_search_stats conn = .ok tp tb cs ss searchable_fields)) ∧
    ((conn.total_products.isOk = false ∨ conn.total_bundles.isOk = false ∨
      conn.category_stats.isOk = false ∨ conn.source_stats.isOk = false) →
      ∃ msg, get_search_stats conn = .error msg searchable_fields) := by
  obtain ⟨tp, tb, cs, ss⟩ := conn
  cases tp <;> cases tb <;> cases cs <;> cases ss <;>
    simp [get_search_stats, Except.isOk, Except.toBool]

/-- Witness for C9 at a connection whose first query fails. -/
theorem get_search_stats_never_raises_witness :
    ∃ msg, get_search_stats
      { total_products := .error "database is locked", total_bundles := .ok 0,
        category_stats := .ok [], source_stats := .ok [] } =
      .error msg searchable_fields := by
  have h := get_search_stats_never_raises
    { total_products := .error "database is locked", total_bundles := .ok 0,
      category_stats := .ok [], source_stats := .ok [] }
  exact h.2 (Or.inl rfl)


end HBI
